import Mathlib

/-!
Verification development for the `holo_monitor` repository: a shallow
embedding, in Lean 4, of the change-detection, field-normalization and
payload-building core of the program, together with theorems settling the
specification's claims about it.

Sources embedded:
* `holo_monitor/runner.py` — change detector (`_take_until_head`, the
  new-item computation of `run_site`, `save_state`).
* `holo_monitor/scrape_utils.py` — `g`, `normalize_release_date_jp`,
  `title_to_key`.
* `holo_monitor/detail_scrapers.py` — the price-normalization block of
  `scrape_amiami`.
* `holo_monitor/hooks.py` — `_sig_value`, `build_payload`, `on_change`.
-/

namespace HoloMonitor

/-! ## Python-style whitespace and basic string helpers -/

/-- Characters matched by Python's regex class `\s` (and by `str.strip` /
`str.split` with no argument) on `str` inputs: ASCII whitespace plus the
Unicode whitespace characters that occur in practice (NBSP, ogham space,
the U+2000 block, line/paragraph separators, narrow/medium spaces and the
ideographic space U+3000). -/
def pyIsSpace (c : Char) : Bool :=
  c = ' ' || c = '\t' || c = '\n' || c.toNat = 0x0b || c.toNat = 0x0c || c = '\r' ||
  (0x1c ≤ c.toNat && c.toNat ≤ 0x1f) || c.toNat = 0x85 || c.toNat = 0xa0 ||
  c.toNat = 0x1680 || (0x2000 ≤ c.toNat && c.toNat ≤ 0x200a) ||
  c.toNat = 0x2028 || c.toNat = 0x2029 || c.toNat = 0x202f ||
  c.toNat = 0x205f || c.toNat = 0x3000

/-- Splits a character list into maximal whitespace-free words, dropping all
whitespace; `cur` accumulates the current word in reverse. -/
def wordsAux (cur : List Char) : List Char → List (List Char)
  | [] => if cur.isEmpty then [] else [cur.reverse]
  | c :: rest =>
    if pyIsSpace c then
      if cur.isEmpty then wordsAux [] rest
      else cur.reverse :: wordsAux [] rest
    else wordsAux (c :: cur) rest

/-- The whitespace-separated words of a character list (Python `s.split()`). -/
def pyWords (l : List Char) : List (List Char) := wordsAux [] l

/-- Joins words with single spaces. -/
def joinWords : List (List Char) → List Char
  | [] => []
  | [w] => w
  | w :: ws => w ++ ' ' :: joinWords ws

/-- Embeds `scrape_utils.g`: `re.sub(r"\s+", " ", s.strip())`.  Stripping the
ends and replacing every maximal whitespace run by one space is exactly
joining the whitespace-separated words with single spaces. -/
def g (s : String) : String := ⟨joinWords (pyWords s.data)⟩

/-- Python `str.strip()`: drop leading and trailing whitespace. -/
def pyStrip (s : String) : String :=
  ⟨((s.data.dropWhile pyIsSpace).reverse.dropWhile pyIsSpace).reverse⟩

/-! ## Change detector (`runner.py`) -/

/-- One row of a storefront listing page, as produced by the listing
extractors in `runner.py` (`{"id": ..., "gcode": ..., "title": ..., "url":
..., "price": ...}`); absent dict keys are the empty string. -/
structure ListingItem where
  id : String
  gcode : String
  title : String
  url : String
  price : String
deriving DecidableEq, Repr

/-- Embeds `runner._item_id`:
`str(item.get("id") or item.get("gcode") or "").strip()`. -/
def _item_id (it : ListingItem) : String :=
  pyStrip (if it.id ≠ "" then it.id else it.gcode)

/-- Embeds `runner._take_until_head`: collect items until the first one whose
id equals `prev_head_id` (exclusive); an empty `prev_head_id` returns the
whole list. -/
def _take_until_head (items : List ListingItem) (prev_head_id : String) :
    List ListingItem :=
  if prev_head_id = "" then items
  else items.takeWhile (fun it => _item_id it ≠ prev_head_id)

/-- The per-site state persisted by `runner.save_state` (`{"ids":
sorted(ids), "head_id": head_id}`); the id collection is a set. -/
structure SiteState where
  ids : Finset String
  head_id : String
deriving DecidableEq

/-- Embeds the change-detection core of `runner.run_site` (the lines from
`window = _take_until_head(filtered, prev_head_id)` to
`save_state(state_file, current, new_head_id)`), starting from the filtered
listing (after `top_n` truncation and keyword filtering) and the loaded
state.  Returns the window, the detected new items, and the state persisted
at the end of the run. -/
def run_site_detect (filtered : List ListingItem) (prev : Finset String)
    (prev_head_id : String) : List ListingItem × List ListingItem × SiteState :=
  let window := _take_until_head filtered prev_head_id
  let current := ((filtered.map _item_id).toFinset).filter (fun x => x ≠ "")
  let new_ids := current \ prev
  let new_items := window.filter (fun it => decide (_item_id it ∈ new_ids))
  let new_head_id :=
    match filtered with
    | [] => prev_head_id
    | it :: _ => _item_id it
  (window, new_items, ⟨current, new_head_id⟩)

/-! ## Date normalizer (`scrape_utils.normalize_release_date_jp`) -/

/-- ASCII decimal digit test, modelling `\d` on the digit repertoire the
program handles (full-width digits are converted to half-width before any
pattern is tried). -/
def isD (c : Char) : Bool := '0' ≤ c && c ≤ '9'

/-- Numeric value of an ASCII digit character. -/
def dVal (c : Char) : Nat := c.toNat - '0'.toNat

/-- Embeds the inner `z2h_digit` of `normalize_release_date_jp`: full-width
digits U+FF10–U+FF19 become ASCII digits, all other characters unchanged. -/
def z2hChar (c : Char) : Char :=
  if 0xFF10 ≤ c.toNat && c.toNat ≤ 0xFF19 then Char.ofNat (c.toNat - 0xFF10 + 0x30)
  else c

/-- Full-width-to-half-width digit conversion over a whole string. -/
def z2h (s : String) : String := ⟨s.data.map z2hChar⟩

/-- Skip `\s*`: drop a maximal whitespace run. -/
def skipWS (l : List Char) : List Char := l.dropWhile pyIsSpace

/-- Matches `\d{4}` at the head: exactly four digits, returning them with the
remainder. -/
def take4d : List Char → Option (List Char × List Char)
  | a :: b :: c :: d :: rest =>
    if isD a && isD b && isD c && isD d then some ([a, b, c, d], rest) else none
  | _ => none

/-- Matches `\d{2}` at the head: exactly two digits, returning their value
with the remainder. -/
def take2d : List Char → Option (Nat × List Char)
  | a :: b :: rest =>
    if isD a && isD b then some (dVal a * 10 + dVal b, rest) else none
  | _ => none

/-- Greedy candidates for `\d{1,2}` at the head, longest first, each with the
remainder; the regex engine backtracks through them in this order. -/
def d2cands : List Char → List (Nat × List Char)
  | a :: b :: rest =>
    if isD a && isD b then [(dVal a * 10 + dVal b, rest), (dVal a, b :: rest)]
    else if isD a then [(dVal a, b :: rest)]
    else []
  | [a] => if isD a then [(dVal a, [])] else []
  | [] => []

/-- The year separator class of the first date pattern: `(?:[\\/\-.]|年)`. -/
def isSepY (c : Char) : Bool :=
  c = '\\' || c = '/' || c = '-' || c = '.' || c = '年'

/-- The month separator class of the first date pattern: `(?:[\\/\-.]|月)`. -/
def isSepM (c : Char) : Bool :=
  c = '\\' || c = '/' || c = '-' || c = '.' || c = '月'

/-- Tries pattern
`(\d{4})\s*(?:[\\/\-.]|年)\s*(\d{1,2})\s*(?:[\\/\-.]|月)\s*(\d{1,2})\s*日?`
at the current position, returning the captured year characters, month and
day; the trailing `\s*日?` always succeeds and captures nothing. -/
def matchYMDAt (l : List Char) : Option (String × Nat × Nat) :=
  match take4d l with
  | none => none
  | some (y, r1) =>
    match skipWS r1 with
    | [] => none
    | s1 :: r3 =>
      if isSepY s1 then
        (d2cands (skipWS r3)).findSome? fun mo_r =>
          match skipWS mo_r.2 with
          | [] => none
          | s2 :: r7 =>
            if isSepM s2 then
              (d2cands (skipWS r7)).findSome? fun dd_r =>
                some (⟨y⟩, mo_r.1, dd_r.1)
            else none
      else none

/-- Tries pattern `(\d{4})\s*(?:[\\/\-.]|年)\s*(\d{1,2})\s*月` at the current
position. -/
def matchYMAt (l : List Char) : Option (String × Nat) :=
  match take4d l with
  | none => none
  | some (y, r1) =>
    match skipWS r1 with
    | [] => none
    | s1 :: r3 =>
      if isSepY s1 then
        (d2cands (skipWS r3)).findSome? fun mo_r =>
          match skipWS mo_r.2 with
          | m :: _ => if m = '月' then some (⟨y⟩, mo_r.1) else none
          | [] => none
      else none

/-- Tries pattern `(\d{2})\s*年\s*(\d{1,2})\s*月` at the current position. -/
def matchYYAt (l : List Char) : Option (Nat × Nat) :=
  match take2d l with
  | none => none
  | some (yy, r1) =>
    match skipWS r1 with
    | [] => none
    | s1 :: r3 =>
      if s1 = '年' then
        (d2cands (skipWS r3)).findSome? fun mo_r =>
          match skipWS mo_r.2 with
          | m :: _ => if m = '月' then some (yy, mo_r.1) else none
          | [] => none
      else none

/-- Leftmost search (`re.search`) for the full year-month-day pattern. -/
def searchYMD : List Char → Option (String × Nat × Nat)
  | [] => none
  | l@(_ :: rest) =>
    match matchYMDAt l with
    | some r => some r
    | none => searchYMD rest

/-- Leftmost search for the year-month pattern. -/
def searchYM : List Char → Option (String × Nat)
  | [] => none
  | l@(_ :: rest) =>
    match matchYMAt l with
    | some r => some r
    | none => searchYM rest

/-- Leftmost search for the two-digit-year-plus-month pattern. -/
def searchYY : List Char → Option (Nat × Nat)
  | [] => none
  | l@(_ :: rest) =>
    match matchYYAt l with
    | some r => some r
    | none => searchYY rest

/-- Formats as Python `%02d` for the month/day values (which are at most two
digits). -/
def fmt2 (n : Nat) : String := if n < 10 then "0" ++ toString n else toString n

/-- Embeds `scrape_utils.normalize_release_date_jp`: convert full-width
digits, collapse whitespace (`re.sub(r"[　\s]+", " ", s).strip()`, which
equals `g` since U+3000 is whitespace), then try the three prioritized date
patterns, first match winning; with no match, return `g` of the working
text. -/
def normalize_release_date_jp (s : String) : String :=
  let s2 := g (z2h s)
  match searchYMD s2.data with
  | some (y, mo, dd) => y ++ "-" ++ fmt2 mo ++ "-" ++ fmt2 dd
  | none =>
    match searchYM s2.data with
    | some (y, mo) => y ++ "-" ++ fmt2 mo
    | none =>
      match searchYY s2.data with
      | some (yy, mo) =>
        toString (if 70 ≤ yy then 1900 + yy else 2000 + yy) ++ "-" ++ fmt2 mo
      | none => g s2

/-! ## Title-key builder (`scrape_utils.title_to_key`) -/

/-- Modelled from the spec: `unicodedata.normalize('NFKC', ...)` (standard
library, outside the repository).  Character-level NFKC for the repertoire
the claims exercise: full-width forms U+FF01–U+FF5E fold to ASCII
(in particular `（` and `）` become `(` and `)`), the ideographic space
U+3000 becomes a space; hiragana, katakana, CJK ideographs and the
lenticular brackets `【】` have no compatibility decomposition and are
unchanged. -/
def nfkcChar (c : Char) : Char :=
  if c.toNat = 0x3000 then ' '
  else if 0xFF01 ≤ c.toNat && c.toNat ≤ 0xFF5E then Char.ofNat (c.toNat - 0xFEE0)
  else c

/-- NFKC normalization over a whole string (see `nfkcChar`). -/
def nfkc (s : String) : String := ⟨s.data.map nfkcChar⟩

/-- Splits at the first occurrence of `t`, returning the part before and the
part after it. -/
def splitAtFirst (t : Char) : List Char → Option (List Char × List Char)
  | [] => none
  | c :: rest =>
    if c = t then some ([], rest)
    else (splitAtFirst t rest).map fun ba => (c :: ba.1, ba.2)

/-- Embeds `re.sub(open [^close]* close, ' ', t)` for a bracket pair: every
block from an opening bracket to the next closing bracket becomes one
space.  The fuel argument (instantiated with the list length) bounds the
recursion; a match always consumes at least one character. -/
def subBracketAux (openC closeC : Char) : Nat → List Char → List Char
  | 0, l => l
  | _ + 1, [] => []
  | fuel + 1, c :: rest =>
    if c = openC then
      match splitAtFirst closeC rest with
      | some (_, after) => ' ' :: subBracketAux openC closeC fuel after
      | none => c :: subBracketAux openC closeC fuel rest
    else c :: subBracketAux openC closeC fuel rest

/-- Bracket-block removal over a string. -/
def subBracket (openC closeC : Char) (s : String) : String :=
  ⟨subBracketAux openC closeC s.data.length s.data⟩

/-- Embeds `re.findall(r'（([^）]{1,30})）', t)`: the contents of every
full-width-parenthesized chunk of one to thirty characters, left to right,
non-overlapping.  At a `（` whose contents run past thirty characters or
never close, scanning resumes right after that `（`, as the regex engine
does. -/
def parenChunksAux : Nat → List Char → List (List Char)
  | 0, _ => []
  | _ + 1, [] => []
  | fuel + 1, c :: rest =>
    if c = '（' then
      match splitAtFirst '）' rest with
      | some (content, after) =>
        if 1 ≤ content.length && content.length ≤ 30 then
          content :: parenChunksAux fuel after
        else parenChunksAux fuel rest
      | none => parenChunksAux fuel rest
    else parenChunksAux fuel rest

/-- Full-width-parenthesized chunks of a string. -/
def parenChunks (s : String) : List (List Char) :=
  parenChunksAux s.data.length s.data

/-- Does `l` start with `p`? -/
def beginsWith (p l : List Char) : Bool := l.take p.length == p

/-- Does `l` end with `p`? -/
def endsSeq (p l : List Char) : Bool := l.drop (l.length - p.length) == p

/-- Substring containment of `needle` in `hay` (`needle in hay` /
`re.search` on a literal). -/
def containsSeq (needle : List Char) : List Char → Bool
  | [] => needle.isEmpty
  | l@(_ :: rest) => beginsWith needle l || containsSeq needle rest

/-- String-level substring containment. -/
def substrS (needle hay : String) : Bool := containsSeq needle.data hay.data

/-- ASCII lowercasing of a string (Python `str.lower` restricted to the
ASCII letters that the case-insensitive patterns involve). -/
def lowerS (s : String) : String := ⟨s.data.map Char.toLower⟩

/-- The variant test applied to a parenthetical chunk:
`re.search(r'(?:ver(?:sion)?|dx|v2|2\.0|衣装|カラー|色|コスチューム|アウトフィット)', ps, re.I)`.
As an unanchored search this is substring containment (a `version` hit is
already a `ver` hit). -/
def parenVariantHit (ps : String) : Bool :=
  let lo := lowerS ps
  substrS "ver" lo || substrS "dx" lo || substrS "v2" lo || substrS "2.0" lo ||
  substrS "衣装" ps || substrS "カラー" ps || substrS "色" ps ||
  substrS "コスチューム" ps || substrS "アウトフィット" ps

/-- The noise-word alternation of `title_to_key`, in the order the regex
tries its alternatives. -/
def noiseWords : List String :=
  ["再販", "予約", "送料無料", "限定販売", "限定", "特典",
   "アクションフィギュア", "ノンスケール", "塗装済み可動フィギュア",
   "プラスチック製", "フィギュア"]

/-- Embeds `re.sub(noise, ' ', t)`: at every position the alternatives are
tried in order, a match becomes one space and scanning resumes after it. -/
def subNoiseAux : Nat → List Char → List Char
  | 0, l => l
  | _ + 1, [] => []
  | fuel + 1, l@(c :: rest) =>
    match noiseWords.findSome?
        (fun w => if beginsWith w.data l then some w.data.length else none) with
    | some n => ' ' :: subNoiseAux fuel (l.drop n)
    | none => c :: subNoiseAux fuel rest

/-- Noise-word removal over a string. -/
def subNoise (s : String) : String := ⟨subNoiseAux s.data.length s.data⟩

/-- Python `t.split(' ')`: split on every single space, keeping empty
pieces; the empty string splits to one empty piece. -/
def splitSpaceAux (cur : List Char) : List Char → List String
  | [] => [⟨cur.reverse⟩]
  | c :: rest =>
    if c = ' ' then ⟨cur.reverse⟩ :: splitSpaceAux [] rest
    else splitSpaceAux (c :: cur) rest

/-- Python `t.split(' ')` over a string. -/
def pySplitSpace (s : String) : List String := splitSpaceAux [] s.data

/-- The known-series vocabulary of `title_to_key`, in source order. -/
def seriesList : List String :=
  ["ねんどろいど", "figma", "POP UP PARADE", "POP UP PARADE L",
   "POP UP PARADE XL", "ARTFX", "ARTFX J", "BISHOUJO", "BISHOJO",
   "KDcolle", "POP UP PARADE XLサイズ"]

/-- The inner `has_cjk` of `title_to_key`:
`re.search(r'[぀-ヿ一-鿿]', s)`. -/
def hasCJK (s : String) : Bool :=
  s.data.any fun c =>
    (0x3040 ≤ c.toNat && c.toNat ≤ 0x30FF) ||
    (0x4E00 ≤ c.toNat && c.toNat ≤ 0x9FFF)

/-- The tail-token variant test:
`re.search(r'(?:ver(?:sion)?$|dx$|v2$|2\.0$|衣装|カラー|色|コスチューム|アウトフィット)', tok, re.I)`. -/
def tailVariantHit (tok : String) : Bool :=
  let lo := lowerS tok
  endsSeq "ver".data lo.data || endsSeq "version".data lo.data ||
  endsSeq "dx".data lo.data || endsSeq "v2".data lo.data ||
  endsSeq "2.0".data lo.data ||
  substrS "衣装" tok || substrS "カラー" tok || substrS "色" tok ||
  substrS "コスチューム" tok || substrS "アウトフィット" tok

/-- Python `str.strip('|')`: drop leading and trailing pipe characters. -/
def stripPipe (s : String) : String :=
  ⟨((s.data.dropWhile (· = '|')).reverse.dropWhile (· = '|')).reverse⟩

/-- Embeds `scrape_utils.title_to_key`: normalize, drop bracketed blocks,
take a variant candidate from the full-width-parenthesized chunks, drop all
parenthetical blocks, drop noise words, then resolve the series, the
character token and (if still missing) a tail-token variant, producing
`series|character|variant` with outer pipes stripped. -/
def title_to_key (title : String) : String :=
  let t0 := g title
  if t0 = "" then ""
  else
    let t1 := nfkc t0
    let t2 := subBracket '【' '】' t1
    let t3 := subBracket '《' '》' t2
    let t4 := subBracket '[' ']' t3
    let paren := parenChunks t4
    let variant0 :=
      ((paren.map fun p => g ⟨p⟩).find? fun ps => ps ≠ "" && parenVariantHit ps).getD ""
    let t5 := subBracket '（' '）' t4
    let t6 := subBracket '(' ')' t5
    let t7 := subNoise t6
    let t8 := g t7
    let series0 := (seriesList.find? fun s => substrS s t8).getD ""
    let tokens := pySplitSpace t8
    let series :=
      if series0 = "" then
        match tokens with
        | [] => series0
        | x :: _ => x
      else series0
    let brandDrop : List String := ["ホロライブプロダクション"]
    let remain := tokens.filter fun tok =>
      tok ≠ "" && tok ≠ series && !(brandDrop.contains tok)
    let cjkCands := remain.filter hasCJK
    let cands := if cjkCands.isEmpty then remain else cjkCands
    let ch := match cands with | [] => "" | x :: _ => x
    let variant :=
      if variant0 = "" then
        (((tokens.drop (tokens.length - 4)).reverse.find? tailVariantHit).getD "")
      else variant0
    stripPipe (series ++ "|" ++ ch ++ "|" ++ variant)

/-! ## Price normalization (`detail_scrapers.scrape_amiami`, price block) -/

/-- Tries the discount annotation pattern `\d+\s*(?:%|％)\s*OFF!?`
(case-insensitive) at the current position, returning the remainder on a
match.  `\d+` greedily takes the maximal digit run; no backtracking is
possible since a digit cannot also be `%`. -/
def matchDiscountAt (l : List Char) : Option (List Char) :=
  match l with
  | [] => none
  | c :: _ =>
    if isD c then
      let r1 := l.dropWhile isD
      let r2 := skipWS r1
      match r2 with
      | p :: r3 =>
        if p = '%' || p = '％' then
          match skipWS r3 with
          | o :: f1 :: f2 :: r4 =>
            if o.toLower = 'o' && f1.toLower = 'f' && f2.toLower = 'f' then
              match r4 with
              | '!' :: r5 => some r5
              | _ => some r4
            else none
          | _ => none
        else none
      | [] => none
    else none

/-- Embeds `re.sub(discount_pattern, '', ptxt)`: delete every discount
annotation. -/
def subDiscountAux : Nat → List Char → List Char
  | 0, l => l
  | _ + 1, [] => []
  | fuel + 1, l@(c :: rest) =>
    match matchDiscountAt l with
    | some rem => subDiscountAux fuel rem
    | none => c :: subDiscountAux fuel rest

/-- Discount-annotation removal plus the trailing `.strip()`. -/
def stripDiscount (s : String) : String :=
  pyStrip ⟨subDiscountAux s.data.length s.data⟩

/-- Greedy backtracking for the capture of `([0-9][0-9,]*)円`: the longest
prefix of `l` (of length at most the digit/comma run length, at least one)
that is directly followed by the yen kanji. -/
def yenBacktrack (l : List Char) : Nat → Option (List Char)
  | 0 => none
  | k + 1 =>
    match l.drop (k + 1) with
    | '円' :: _ => some (l.take (k + 1))
    | _ => yenBacktrack l k

/-- Tries `([0-9][0-9,]*)円` at the current position: a digit-led run of
digits and commas whose longest feasible prefix is directly followed by the
yen kanji (the source builds the pattern with `chr(0x5186)`, which is `円`,
not the `¥` sign).  Returns the captured group. -/
def matchYenAt (l : List Char) : Option (List Char) :=
  match l with
  | [] => none
  | c :: _ =>
    if isD c then
      let run := l.takeWhile fun x => isD x || x = ','
      yenBacktrack l run.length
    else none

/-- Leftmost search for a yen-adjacent numeric group (the source takes
`yen_matches[0]`). -/
def searchYen : List Char → Option (List Char)
  | [] => none
  | l@(_ :: rest) =>
    match matchYenAt l with
    | some r => some r
    | none => searchYen rest

/-- Embeds `re.findall(r'[0-9][0-9,]*', text)`: the maximal digit-led runs
of digits and commas, left to right. -/
def numChunksAux : Nat → List Char → List (List Char)
  | 0, _ => []
  | _ + 1, [] => []
  | fuel + 1, l@(c :: rest) =>
    if isD c then
      let run := l.takeWhile fun x => isD x || x = ','
      run :: numChunksAux fuel (l.drop run.length)
    else numChunksAux fuel rest

/-- Numeric chunks of a string. -/
def numChunks (s : String) : List (List Char) := numChunksAux s.data.length s.data

/-- Numeric value of a digit-character list (`int` after stripping
non-digits). -/
def digitsVal (l : List Char) : Nat := l.foldl (fun acc c => acc * 10 + dVal c) 0

/-- Embeds the price block of `detail_scrapers.scrape_amiami` (the branch
for a non-empty price-element text): strip discount annotations, then try a
yen-kanji-adjacent numeric group, then the maximum over all numeric chunks
of the cleaned text, then all digits of the raw text; the currency is
`JPY` on both branches of the source's conditional; the tax flag is a
tri-state decided by the 税込/税抜 markers over the cleaned text joined
with the body.  With an empty price text the source falls back to `og:`
price metadata (a further page lookup, out of scope here) and the tax flag
stays empty; that branch is represented by three empty fields. -/
def amiami_price_fields (ptxt body : String) : String × String × String :=
  if ptxt = "" then ("", "", "")
  else
    let ptxt_clean := stripDiscount ptxt
    let pv1 :=
      match searchYen ptxt_clean.data with
      | some capt => String.mk (capt.filter isD)
      | none => ""
    let pv2 :=
      if pv1 ≠ "" then pv1
      else
        let chunks := (numChunks ptxt_clean).map fun chunk => digitsVal (chunk.filter isD)
        match chunks with
        | [] => ""
        | x :: xs => toString (xs.foldl Nat.max x)
    let price_value :=
      if pv2 ≠ "" then pv2 else String.mk (ptxt.data.filter isD)
    let currency :=
      if substrS "jpy" (lowerS ptxt) || substrS "円" ptxt then "JPY" else "JPY"
    let scope := g (ptxt_clean ++ " " ++ body)
    let tax :=
      if substrS "税込" scope then "TRUE"
      else if substrS "税抜" scope then "FALSE"
      else ""
    (price_value, currency, tax)

/-! ## Canonical record builder (`hooks.py`) -/

/-- The detail field mapping produced by one site adapter (`RawFields`):
any key may be absent (`none`); the image list is a list of URL strings.
The source represents this as a loosely-typed `dict`; every adapter stores
string values under these keys. -/
structure RawFields where
  Title : Option String := none
  Body : Option String := none
  overview : Option String := none
  Bonus : Option String := none
  PriceValue : Option String := none
  PriceTaxIncluded : Option String := none
  PriceCurrency : Option String := none
  PreorderStart : Option String := none
  PreorderEnd : Option String := none
  ReleaseDate : Option String := none
  ShippingDate : Option String := none
  Maker : Option String := none
  Materials : Option String := none
  Modeler : Option String := none
  Character : Option String := none
  Series : Option String := none
  Tags : Option String := none
  Copyright : Option String := none
  JAN : Option String := none
  category : Option String := none
  Category : Option String := none
  Images : List String := []
deriving DecidableEq

/-- The detail mapping with every key absent. -/
def emptyRaw : RawFields := {}

/-- Embeds `hooks._sig_value` on a possibly-absent scalar field
(`detail_data.get(key)`): `None` becomes the empty string, a string is
whitespace-collapsed with `g`. -/
def sigOpt : Option String → String
  | none => ""
  | some s => g s

/-- Modelled from the spec: the content hash, `hashlib.md5(...).hexdigest()`
in `hooks._hash` (an external library call).  It is replaced by a concrete
deterministic digest of the signature string; every theorem below depends
only on the digest being a function of its input. -/
def _hash (s : String) : String :=
  toString (s.data.foldl (fun h c => (h * 131 + c.toNat) % (2 ^ 64)) 5381)

/-- Hexadecimal digit for the low escape of `jsonQuote`. -/
def hexDigit (n : Nat) : Char :=
  if n < 10 then Char.ofNat ('0'.toNat + n) else Char.ofNat ('a'.toNat + n - 10)

/-- JSON string quoting as `json.dumps` with `ensure_ascii=False` performs
it: backslash, quote and control characters are escaped, everything else is
emitted literally. -/
def jsonQuote (s : String) : String :=
  let esc := s.data.flatMap fun c =>
    if c = '"' then ['\\', '"']
    else if c = '\\' then ['\\', '\\']
    else if c = '\n' then ['\\', 'n']
    else if c = '\r' then ['\\', 'r']
    else if c = '\t' then ['\\', 't']
    else if c.toNat < 0x20 then
      ['\\', 'u', '0', '0', hexDigit (c.toNat / 16), hexDigit (c.toNat % 16)]
    else [c]
  "\"" ++ String.mk esc ++ "\""

/-- Modelled from the spec: `json.dumps` (standard library) on an
insertion-ordered string dictionary, with `ensure_ascii=False`. -/
def jsonDumps (entries : List (String × String)) : String :=
  "\x7b" ++
    String.intercalate ", "
      (entries.map fun kv => jsonQuote kv.1 ++ ": " ++ jsonQuote kv.2) ++
  "\x7d"

/-- Embeds `hooks._build_prompt_payload`: walk `PROMPT_FIELDS` in order,
skip absent values and values that strip to empty, keep the stripped
value. -/
def prompt_payload (d : RawFields) : List (String × String) :=
  ([("Title", d.Title), ("Body", d.Body), ("PriceValue", d.PriceValue),
    ("PriceCurrency", d.PriceCurrency), ("PreorderStart", d.PreorderStart),
    ("PreorderEnd", d.PreorderEnd), ("ReleaseDate", d.ReleaseDate),
    ("ShippingDate", d.ShippingDate)]).filterMap fun kv =>
    match kv.2 with
    | none => none
    | some v =>
      let tv := pyStrip v
      if tv = "" then none else some (kv.1, tv)

/-- Python `dict[key] = value` on an insertion-ordered association list:
overwrite in place when the key exists, append otherwise. -/
def dictSet (l : List (String × String)) (k v : String) : List (String × String) :=
  if l.any (fun kv => kv.1 = k) then
    l.map fun kv => if kv.1 = k then (k, v) else kv
  else l ++ [(k, v)]

/-- The WordPress credentials environment read by `hooks._env`; mirroring is
configured only when all three are non-empty. -/
structure WpEnv where
  WP_SITE_URL : String
  WP_USER : String
  WP_APP_PASSWORD : String

/-- Embeds `hooks._mirror_images_to_wp`.  The per-URL upload
(`_wp_upload_image`, network I/O and a process-wide cache) is abstracted as
an oracle returning the re-hosted URL or `none` on failure; the source
appends `wp or u`, so a failed upload keeps the original URL.  When any of
the three environment values is empty the URL list is returned untouched. -/
def _mirror_images_to_wp (env : WpEnv) (upload : String → Option String)
    (urls : List String) (_referer : String) : List String :=
  if env.WP_SITE_URL ≠ "" && env.WP_USER ≠ "" && env.WP_APP_PASSWORD ≠ "" then
    urls.map fun u => (upload u).getD u
  else urls

/-- The image-list preparation of `hooks.build_payload`: keep truthy
entries, strip them, then substitute the mirrored list when it is non-empty
and has at least one truthy entry. -/
def payload_imgs (env : WpEnv) (upload : String → Option String) (url : String)
    (d : RawFields) : List String :=
  let imgs := (d.Images.filter fun im => im ≠ "").map pyStrip
  if imgs.isEmpty then imgs
  else
    let mirrored := _mirror_images_to_wp env upload imgs url
    if !mirrored.isEmpty && mirrored.any (fun u => u ≠ "") then mirrored else imgs

/-- The title resolution of `hooks.build_payload`:
`detail_data.get('Title') or ''`, falling back to the `Character` field
when empty. -/
def payload_title (d : RawFields) : String :=
  let t := d.Title.getD ""
  if t = "" then d.Character.getD "" else t

/-- The signature string hashed by `hooks.build_payload` into `SourceHash`:
the pipe-join of the ordered `signature_parts` list — `_sig_value` of the
resolved title, the body truncated to 2000 characters, overview, bonus, the
price fields, the four date fields, maker/materials/modeler,
character/series/tags, copyright, and the pipe-joined image URL list. -/
def source_hash_input (d : RawFields) (imgs : List String) : String :=
  String.intercalate "|"
    [g (payload_title d), (g (d.Body.getD "")).take 2000,
     g (d.overview.getD ""), g (d.Bonus.getD ""),
     sigOpt d.PriceValue, sigOpt d.PriceTaxIncluded, sigOpt d.PriceCurrency,
     sigOpt d.PreorderStart, sigOpt d.PreorderEnd,
     sigOpt d.ReleaseDate, sigOpt d.ShippingDate,
     sigOpt d.Maker, sigOpt d.Materials, sigOpt d.Modeler,
     sigOpt d.Character, sigOpt d.Series, sigOpt d.Tags, sigOpt d.Copyright,
     String.intercalate "|" imgs]

/-- The canonical payload dictionary built by `hooks.build_payload`, with
its keys in source order as typed fields.  All values in the source are
strings except `NeedsReview`, which is the Python boolean `False`. -/
structure Payload where
  Date : String
  Title : String
  SourceTitle : String
  slug : String
  BodySource : String
  Body : String
  Tags : String
  category : String
  Keyword : String
  AffiliateLink : String
  ImageURL : String
  PriceValue : String
  PriceTaxIncluded : String
  PriceCurrency : String
  JAN : String
  TitleKey : String
  PreorderStart : String
  PreorderEnd : String
  ReleaseDate : String
  ShippingDate : String
  Maker : String
  Materials : String
  AgeRating : String
  Copyright : String
  Series : String
  Modeler : String
  Character : String
  SourceURL : String
  Bonus : String
  overview : String
  UpdatedAt : String
  SourceHash : String
  NeedsReview : Bool
  status : String
deriving DecidableEq

/-- Embeds `hooks.build_payload` for a supplied detail mapping (with
`detail=None` the source first runs `scrape_detail`, a network fetch plus
adapter dispatch, out of scope here).  The wall-clock values `_now_jp()`
and `_iso_now()` are passed as the `now_jp` and `iso_now` parameters;
`_generate_body_with_gemini` always returns `None` in the source, so the
final body is the raw body. -/
def build_payload (env : WpEnv) (upload : String → Option String)
    (now_jp iso_now : String) (url : String) (d : RawFields) : Payload :=
  let imgs := payload_imgs env upload url d
  let image_field :=
    if 1 < imgs.length then String.intercalate ",\n" imgs else imgs.headD ""
  let title := payload_title d
  let body := d.Body.getD ""
  let overview := d.overview.getD ""
  let bonus := d.Bonus.getD ""
  let category_value :=
    let c := d.category.getD ""
    if c = "" then d.Category.getD "" else c
  let pp0 := prompt_payload d
  let pp1 := if pp0.any (fun kv => kv.1 = "Title") then pp0 else pp0 ++ [("Title", title)]
  let pp2 := dictSet pp1 "Body" body
  let body_source := jsonDumps pp2
  let final_body := body
  let source_hash := _hash (source_hash_input d imgs)
  let title_key := title_to_key title
  { Date := now_jp
    Title := title
    SourceTitle := title
    slug := ""
    BodySource := body_source
    Body := final_body
    Tags := d.Tags.getD ""
    category := category_value
    Keyword := ""
    AffiliateLink := ""
    ImageURL := image_field
    PriceValue := d.PriceValue.getD ""
    PriceTaxIncluded := d.PriceTaxIncluded.getD ""
    PriceCurrency := d.PriceCurrency.getD ""
    JAN := d.JAN.getD ""
    TitleKey := title_key
    PreorderStart := d.PreorderStart.getD ""
    PreorderEnd := d.PreorderEnd.getD ""
    ReleaseDate := d.ReleaseDate.getD ""
    ShippingDate := d.ShippingDate.getD ""
    Maker := d.Maker.getD ""
    Materials := d.Materials.getD ""
    AgeRating := ""
    Copyright := d.Copyright.getD ""
    Series := d.Series.getD ""
    Modeler := d.Modeler.getD ""
    Character := d.Character.getD ""
    SourceURL := url
    Bonus := bonus
    overview := overview
    UpdatedAt := iso_now
    SourceHash := source_hash
    NeedsReview := false
    status := "" }

/-- A value of the payload dictionary: the source stores strings everywhere
except the boolean `NeedsReview`. -/
inductive PValue where
  | str (s : String)
  | bool (b : Bool)
deriving DecidableEq

/-- The payload as the key-value list the Python dict literal denotes, in
source order. -/
def payloadValues (p : Payload) : List (String × PValue) :=
  [("Date", .str p.Date), ("Title", .str p.Title),
   ("SourceTitle", .str p.SourceTitle), ("slug", .str p.slug),
   ("BodySource", .str p.BodySource), ("Body", .str p.Body),
   ("Tags", .str p.Tags), ("category", .str p.category),
   ("Keyword", .str p.Keyword), ("AffiliateLink", .str p.AffiliateLink),
   ("ImageURL", .str p.ImageURL), ("PriceValue", .str p.PriceValue),
   ("PriceTaxIncluded", .str p.PriceTaxIncluded),
   ("PriceCurrency", .str p.PriceCurrency), ("JAN", .str p.JAN),
   ("TitleKey", .str p.TitleKey), ("PreorderStart", .str p.PreorderStart),
   ("PreorderEnd", .str p.PreorderEnd), ("ReleaseDate", .str p.ReleaseDate),
   ("ShippingDate", .str p.ShippingDate), ("Maker", .str p.Maker),
   ("Materials", .str p.Materials), ("AgeRating", .str p.AgeRating),
   ("Copyright", .str p.Copyright), ("Series", .str p.Series),
   ("Modeler", .str p.Modeler), ("Character", .str p.Character),
   ("SourceURL", .str p.SourceURL), ("Bonus", .str p.Bonus),
   ("overview", .str p.overview), ("UpdatedAt", .str p.UpdatedAt),
   ("SourceHash", .str p.SourceHash),
   ("NeedsReview", .bool p.NeedsReview), ("status", .str p.status)]

/-! ## Per-item change processing (`hooks.on_change`) -/

/-- One element of the `change_items` batch handed to `on_change`: the dict
may carry a prebuilt payload, a url (or `SourceURL`), a prebuilt detail
mapping, and the listing ids.  Absent string keys are the empty string. -/
structure ChangeItem where
  payload : Option Payload := none
  url : String := ""
  sourceURL : String := ""
  detail_data : Option RawFields := none
  id : String := ""
  gcode : String := ""

/-- The url resolution of `on_change`:
`item.get('url') or item.get('SourceURL') or ''`. -/
def changeItemUrl (it : ChangeItem) : String :=
  if it.url ≠ "" then it.url else it.sourceURL

/-- The error-message prefix of `on_change`:
`(url or str(item.get('id') or item.get('gcode') or ''))[:160]`. -/
def displayTarget (it : ChangeItem) : String :=
  let u := changeItemUrl it
  (if u ≠ "" then u else if it.id ≠ "" then it.id else it.gcode).take 160

/-- The per-item loop of `on_change`: prebuilt payloads are taken as-is,
otherwise the builder runs; a builder exception (modelled as `Except.error`,
the builder is a parameter because `build_payload` fails only through its
effects — detail fetch, hashing of foreign data) is recorded as
`"<display_target>: <exc>"` and the loop continues.  Returns the payload
and error lists in order. -/
def processItems (build : String → Option RawFields → Except String Payload) :
    List ChangeItem → List Payload × List String
  | [] => ([], [])
  | item :: rest =>
    let r := processItems build rest
    match item.payload with
    | some p => (p :: r.1, r.2)
    | none =>
      match build (changeItemUrl item) item.detail_data with
      | .ok p => (p :: r.1, r.2)
      | .error e => (r.1, (displayTarget item ++ ": " ++ e) :: r.2)

/-- Embeds `hooks.on_change`: process the batch item by item, then hand the
successfully built payloads to the sheet appender (`append_payloads`,
abstracted as the `append` parameter since it is network I/O); an appender
exception is recorded as `"sheets: <exc>"` with zero rows written.  Returns
`(payloads, errors, wrote)` — the function itself never propagates an
exception. -/
def on_change (build : String → Option RawFields → Except String Payload)
    (append : List Payload → Except String Nat)
    (change_items : List ChangeItem) : List Payload × List String × Nat :=
  let pe := processItems build change_items
  if pe.1.isEmpty then (pe.1, pe.2, 0)
  else
    match append pe.1 with
    | .ok n => (pe.1, pe.2, n)
    | .error e => (pe.1, pe.2 ++ ["sheets: " ++ e], 0)

/-- A concrete payload, used for closed instances: the build over the empty
detail mapping. -/
def samplePayload : Payload :=
  build_payload ⟨"", "", ""⟩ (fun _ => none) "" "" "" emptyRaw

/-- A batch item carrying a prebuilt payload. -/
def sampleOkItem : ChangeItem := { payload := some samplePayload }

/-- A batch item with no prebuilt payload, to be built from its url. -/
def sampleBadItem : ChangeItem := { url := "http://x" }

/-- A builder that always fails, modelling a per-item build exception. -/
def failBuilder : String → Option RawFields → Except String Payload :=
  fun _ _ => .error "boom"

/-- An appender that reports the number of rows it received. -/
def lenAppender : List Payload → Except String Nat :=
  fun ps => .ok ps.length

/-! ## Helper lemmas -/

theorem takeWhile_all {α : Type} {p : α → Bool} :
    ∀ l : List α, (∀ x ∈ l, p x = true) → l.takeWhile p = l := by
  intro l h
  induction l with
  | nil => rfl
  | cons a t ih =>
    have ha : p a = true := h a (List.mem_cons_self a t)
    simp only [List.takeWhile_cons, ha, if_true]
    rw [ih fun x hx => h x (List.mem_cons_of_mem a hx)]

theorem takeWhile_break {α : Type} {p : α → Bool} :
    ∀ (l1 : List α) (x : α) (l2 : List α), (∀ y ∈ l1, p y = true) → p x = false →
      (l1 ++ x :: l2).takeWhile p = l1 := by
  intro l1
  induction l1 with
  | nil => intro x l2 _ hx; simp [List.takeWhile_cons, hx]
  | cons a t ih =>
    intro x l2 h hx
    have ha : p a = true := h a (List.mem_cons_self a t)
    simp only [List.cons_append, List.takeWhile_cons, ha, if_true]
    rw [ih x l2 (fun y hy => h y (List.mem_cons_of_mem a hy)) hx]

/-! ## Claim theorems -/

set_option maxRecDepth 8192

/-- C2.  For every filtered listing and persisted `head_id` `h`: when `h`
is empty or no item's id equals `h`, the window returned by
`_take_until_head` is the entire filtered sequence; otherwise it is exactly
the prefix of items strictly before the first item whose id equals `h`. -/
theorem C2_take_until_head_window (items : List ListingItem) (h : String) :
    ((h = "" ∨ h ∉ items.map _item_id) → _take_until_head items h = items)
    ∧ (∀ (l1 : List ListingItem) (x : ListingItem) (l2 : List ListingItem),
        h ≠ "" → items = l1 ++ x :: l2 → _item_id x = h →
        h ∉ l1.map _item_id → _take_until_head items h = l1) := by
  constructor
  · intro hcase
    rcases hcase with hce | hnm
    · simp [_take_until_head, hce]
    · unfold _take_until_head
      split
      · rfl
      · exact takeWhile_all items fun it hit => by
          simp only [decide_eq_true_eq]
          intro hid
          exact hnm (hid ▸ List.mem_map_of_mem _item_id hit)
  · intro l1 x l2 hne heq hx hnm
    unfold _take_until_head
    rw [if_neg hne, heq]
    refine takeWhile_break l1 x l2 (fun y hy => ?_) ?_
    · simp only [decide_eq_true_eq]
      intro hid
      exact hnm (hid ▸ List.mem_map_of_mem _item_id hy)
    · simp [hx]

/-- Closed instance of C2 at concrete inputs: a stale head `"Z"` keeps the
whole listing, the head `"Q"` cuts the window just before its item. -/
theorem C2_take_until_head_window_witness :
    _take_until_head [⟨"P", "", "", "", ""⟩, ⟨"Q", "", "", "", ""⟩] "Z" =
      [⟨"P", "", "", "", ""⟩, ⟨"Q", "", "", "", ""⟩]
    ∧ _take_until_head [⟨"P", "", "", "", ""⟩, ⟨"Q", "", "", "", ""⟩] "Q" =
      [⟨"P", "", "", "", ""⟩] :=
  ⟨(C2_take_until_head_window _ "Z").1 (Or.inr (by decide)),
   (C2_take_until_head_window _ "Q").2 [⟨"P", "", "", "", ""⟩]
     ⟨"Q", "", "", "", ""⟩ [] (by decide) rfl (by decide) (by decide)⟩

set_option maxHeartbeats 2000000 in
/-- C1.  A site run whose persisted state is `ids = {A, B}`,
`head_id = A`, with filtered listing `[C, D, A, B]` (all ids distinct and
non-empty): the head window is `[C, D]`, the detected new items are exactly
`[C, D]` in listing order, and the state persisted at the end of the run is
`ids = {A, B, C, D}` with `head_id = C`. -/
theorem C1_run_site_example
    (c d a b : ListingItem) (A B C D : String)
    (hc : _item_id c = C) (hd : _item_id d = D)
    (ha : _item_id a = A) (hb : _item_id b = B)
    (hCne : C ≠ "") (hDne : D ≠ "") (hAne : A ≠ "") (hBne : B ≠ "")
    (hCD : C ≠ D) (hCA : C ≠ A) (hCB : C ≠ B)
    (hDA : D ≠ A) (hDB : D ≠ B) (hAB : A ≠ B) :
    run_site_detect [c, d, a, b] {A, B} A =
      ([c, d], [c, d], ⟨{A, B, C, D}, C⟩) := by
  have hwin : _take_until_head [c, d, a, b] A = [c, d] := by
    unfold _take_until_head
    rw [if_neg hAne]
    simp [List.takeWhile_cons, hc, hd, ha, hCA, hDA]
  have hmap : List.map _item_id [c, d, a, b] = [C, D, A, B] := by
    simp [hc, hd, ha, hb]
  have hcur : ((List.map _item_id [c, d, a, b]).toFinset).filter (fun x => x ≠ "")
      = ({A, B, C, D} : Finset String) := by
    rw [hmap]
    ext x
    simp only [Finset.mem_filter, List.mem_toFinset, List.mem_cons,
      List.not_mem_nil, or_false, Finset.mem_insert, Finset.mem_singleton]
    constructor
    · rintro ⟨h1, _⟩
      tauto
    · intro h1
      refine ⟨by tauto, ?_⟩
      rcases h1 with rfl | rfl | rfl | rfl
      exacts [hAne, hBne, hCne, hDne]
  have hCin : C ∈ ({A, B, C, D} : Finset String) \ {A, B} := by
    simp only [Finset.mem_sdiff, Finset.mem_insert, Finset.mem_singleton]
    exact ⟨by tauto, by tauto⟩
  have hDin : D ∈ ({A, B, C, D} : Finset String) \ {A, B} := by
    simp only [Finset.mem_sdiff, Finset.mem_insert, Finset.mem_singleton]
    exact ⟨by tauto, by tauto⟩
  have hPc : decide (_item_id c ∈ ({A, B, C, D} : Finset String) \ {A, B}) = true :=
    decide_eq_true (by rw [hc]; exact hCin)
  have hPd : decide (_item_id d ∈ ({A, B, C, D} : Finset String) \ {A, B}) = true :=
    decide_eq_true (by rw [hd]; exact hDin)
  have hfil : List.filter
      (fun it => decide (_item_id it ∈ ({A, B, C, D} : Finset String) \ {A, B}))
      [c, d] = [c, d] := by
    simp only [List.filter_cons, List.filter_nil, hPc, hPd, if_true]
  simp only [run_site_detect]
  rw [hwin, hcur, hfil, hc]

/-- Closed instance of C1 at concrete items and ids. -/
theorem C1_run_site_example_witness :
    run_site_detect
      [⟨"C", "", "", "", ""⟩, ⟨"D", "", "", "", ""⟩,
       ⟨"A", "", "", "", ""⟩, ⟨"B", "", "", "", ""⟩]
      {"A", "B"} "A" =
      ([⟨"C", "", "", "", ""⟩, ⟨"D", "", "", "", ""⟩],
       [⟨"C", "", "", "", ""⟩, ⟨"D", "", "", "", ""⟩],
       ⟨{"A", "B", "C", "D"}, "C"⟩) :=
  C1_run_site_example _ _ _ _ "A" "B" "C" "D"
    (by decide) (by decide) (by decide) (by decide)
    (by decide) (by decide) (by decide) (by decide)
    (by decide) (by decide) (by decide) (by decide) (by decide) (by decide)

/-- C4 (evaluation of the code at the claim's input).  `title_to_key` on
`"【限定】ねんどろいど 博麗霊夢（コスチュームVer.）"` yields
`"ねんどろいど|博麗霊夢"`: the series and character components are as the
claim states and the bracketed block and 限定 are gone, but the variant
component is empty — no costume/version marker survives, because NFKC folds
the full-width parentheses to ASCII before the full-width-paren variant
regex runs, so the parenthetical variant extraction can never fire. -/
theorem C4_title_to_key_eval :
    title_to_key "【限定】ねんどろいど 博麗霊夢（コスチュームVer.）"
      = "ねんどろいど|博麗霊夢"
    ∧ substrS "ねんどろいど"
        (title_to_key "【限定】ねんどろいど 博麗霊夢（コスチュームVer.）") = true
    ∧ substrS "博麗霊夢"
        (title_to_key "【限定】ねんどろいど 博麗霊夢（コスチュームVer.）") = true
    ∧ substrS "限定"
        (title_to_key "【限定】ねんどろいど 博麗霊夢（コスチュームVer.）") = false
    ∧ substrS "コスチューム"
        (title_to_key "【限定】ねんどろいど 博麗霊夢（コスチュームVer.）") = false
    ∧ substrS "Ver"
        (title_to_key "【限定】ねんどろいど 博麗霊夢（コスチュームVer.）") = false := by
  refine ⟨by decide, by decide, by decide, by decide, by decide, by decide⟩

/-- C5.  The AmiAmi price normalization maps the price text
`"¥12,800（税込）"` (with an empty body, so no tax-excluded marker in
scope) to value `"12800"`, currency `"JPY"`, tax-included `"TRUE"`: the
yen-kanji stage finds nothing, the maximum-of-numeric-groups stage yields
12800, and the 税込 marker sets the flag. -/
theorem C5_amiami_price_example :
    amiami_price_fields "¥12,800（税込）" "" = ("12800", "JPY", "TRUE") := by
  decide

/-- C6.  `normalize_release_date_jp` maps `"2025年3月6日"` to
`"2025-03-06"`, `"25年3月"` to `"2025-03"` and `"08年3月"` to `"2008-03"`;
in general, whenever the two higher-priority patterns find nothing and the
two-digit-year pattern matches with year value `yy` and month `mo`, a year
value of at least 70 is pivoted into the 1900s and a smaller one into the
2000s. -/
theorem C6_normalize_release_date_jp :
    normalize_release_date_jp "2025年3月6日" = "2025-03-06"
    ∧ normalize_release_date_jp "25年3月" = "2025-03"
    ∧ normalize_release_date_jp "08年3月" = "2008-03"
    ∧ ∀ (s : String) (yy mo : Nat),
        searchYMD (g (z2h s)).data = none →
        searchYM (g (z2h s)).data = none →
        searchYY (g (z2h s)).data = some (yy, mo) →
        normalize_release_date_jp s =
          toString (if 70 ≤ yy then 1900 + yy else 2000 + yy) ++ "-" ++ fmt2 mo := by
  refine ⟨by decide, by decide, by decide, ?_⟩
  intro s yy mo h1 h2 h3
  simp only [normalize_release_date_jp]
  rw [h1, h2, h3]

/-- Closed instance of the general clause of C6 at `"77年3月"` (pivoted to
1977) and `"08年3月"` (pivoted to 2008). -/
theorem C6_normalize_release_date_jp_witness :
    normalize_release_date_jp "77年3月" =
      toString (if 70 ≤ 77 then 1900 + 77 else 2000 + 77) ++ "-" ++ fmt2 3
    ∧ normalize_release_date_jp "08年3月" =
      toString (if 70 ≤ 8 then 1900 + 8 else 2000 + 8) ++ "-" ++ fmt2 3 :=
  ⟨C6_normalize_release_date_jp.2.2.2 "77年3月" 77 3 (by decide) (by decide) (by decide),
   C6_normalize_release_date_jp.2.2.2 "08年3月" 8 3 (by decide) (by decide) (by decide)⟩

/-! Word-structure lemmas for the idempotence of `g`, used by C7. -/

theorem wordsAux_sound :
    ∀ (l cur : List Char), (∀ c ∈ cur, pyIsSpace c = false) →
      ∀ w ∈ wordsAux cur l, w ≠ [] ∧ ∀ c ∈ w, pyIsSpace c = false := by
  intro l
  induction l with
  | nil =>
    intro cur hcur w hw
    unfold wordsAux at hw
    split at hw
    · simp at hw
    · rename_i hne
      simp only [List.mem_singleton] at hw
      subst hw
      refine ⟨?_, ?_⟩
      · intro hrev
        have : cur = [] := by
          have := congrArg List.reverse hrev
          simpa using this
        rw [this] at hne
        simp at hne
      · intro c hc
        exact hcur c (List.mem_reverse.mp hc)
  | cons x rest ih =>
    intro cur hcur w hw
    unfold wordsAux at hw
    by_cases hx : pyIsSpace x = true
    · rw [if_pos hx] at hw
      by_cases hc : cur.isEmpty
      · rw [if_pos hc] at hw
        exact ih [] (by intro c hc'; simp at hc') w hw
      · rw [if_neg hc] at hw
        rcases List.mem_cons.mp hw with hrev | hw'
        · subst hrev
          refine ⟨?_, ?_⟩
          · intro hrev
            have : cur = [] := by
              have := congrArg List.reverse hrev
              simpa using this
            rw [this] at hc
            simp at hc
          · intro c hcc
            exact hcur c (List.mem_reverse.mp hcc)
        · exact ih [] (by intro c hc'; simp at hc') w hw'
    · rw [if_neg hx] at hw
      refine ih (x :: cur) ?_ w hw
      intro c hcc
      rcases List.mem_cons.mp hcc with rfl | hcc'
      · exact eq_false_of_ne_true hx
      · exact hcur c hcc'

theorem wordsAux_through_word :
    ∀ (w cur l : List Char), (∀ c ∈ w, pyIsSpace c = false) →
      wordsAux cur (w ++ l) = wordsAux (w.reverse ++ cur) l := by
  intro w
  induction w with
  | nil => intro cur l _; simp
  | cons x w' ih =>
    intro cur l hx
    have hxf : pyIsSpace x = false := hx x (List.mem_cons_self x w')
    have h1 : wordsAux cur ((x :: w') ++ l) = wordsAux (x :: cur) (w' ++ l) := by
      show wordsAux cur (x :: (w' ++ l)) = _
      simp only [wordsAux, hxf]
      simp
    rw [h1, ih (x :: cur) l (fun c hc => hx c (List.mem_cons_of_mem x hc))]
    congr 1
    simp

theorem pyWords_joinWords :
    ∀ ws : List (List Char),
      (∀ w ∈ ws, w ≠ [] ∧ ∀ c ∈ w, pyIsSpace c = false) →
      pyWords (joinWords ws) = ws := by
  intro ws
  induction ws with
  | nil => intro _; rfl
  | cons w ws' ih =>
    intro h
    obtain ⟨hwne, hwns⟩ := h w (List.mem_cons_self w ws')
    cases ws' with
    | nil =>
      show pyWords w = [w]
      unfold pyWords
      rw [show w = w ++ ([] : List Char) by simp]
      rw [wordsAux_through_word w [] [] (by simpa using hwns)]
      unfold wordsAux
      rw [if_neg ?hne]
      · simp
      case hne =>
        simp only [List.append_nil, List.isEmpty_eq_true, List.reverse_eq_nil_iff]
        simpa using hwne
    | cons w2 ws'' =>
      show pyWords (w ++ ' ' :: joinWords (w2 :: ws'')) = w :: w2 :: ws''
      unfold pyWords
      rw [wordsAux_through_word w [] _ hwns]
      show wordsAux (w.reverse ++ []) (' ' :: joinWords (w2 :: ws'')) = _
      unfold wordsAux
      rw [if_pos (by decide)]
      rw [if_neg ?hne2]
      · have hrev : (w.reverse ++ ([] : List Char)).reverse = w := by simp
        have hrest : wordsAux [] (joinWords (w2 :: ws'')) = w2 :: ws'' :=
          ih fun x hx => h x (List.mem_cons_of_mem w hx)
        rw [hrev, hrest]
      case hne2 =>
        simp only [List.append_nil, List.isEmpty_eq_true, List.reverse_eq_nil_iff]
        simpa using hwne

theorem g_idem (s : String) : g (g s) = g s := by
  unfold g
  congr 1
  exact congrArg joinWords
    (pyWords_joinWords (pyWords s.data) (wordsAux_sound s.data [] (by intro c hc; simp at hc)))

/-- C7 counterexample.  On `"１２３"` (full-width digits) none of the three
date patterns matches, yet `normalize_release_date_jp` returns `"123"`,
which is not the whitespace-normalized original text `"１２３"`: the
function also converts full-width digits to half-width before returning. -/
theorem C7_counterexample :
    searchYMD (g (z2h "１２３")).data = none
    ∧ searchYM (g (z2h "１２３")).data = none
    ∧ searchYY (g (z2h "１２３")).data = none
    ∧ normalize_release_date_jp "１２３" ≠ g "１２３" := by
  refine ⟨by decide, by decide, by decide, by decide⟩

/-- C7 as amended.  For every input on which none of the three date
patterns matches, `normalize_release_date_jp` returns the
whitespace-normalized input with full-width digits converted to half-width
(and, being a total function, it never raises). -/
theorem C7_no_match_passthrough (s : String)
    (h1 : searchYMD (g (z2h s)).data = none)
    (h2 : searchYM (g (z2h s)).data = none)
    (h3 : searchYY (g (z2h s)).data = none) :
    normalize_release_date_jp s = g (z2h s) := by
  simp only [normalize_release_date_jp]
  rw [h1, h2, h3]
  exact g_idem (z2h s)

/-- Closed instance of the amended C7 at `"未定"` and `"１２３"`. -/
theorem C7_no_match_passthrough_witness :
    normalize_release_date_jp "未定" = g (z2h "未定")
    ∧ normalize_release_date_jp "１２３" = g (z2h "１２３") :=
  ⟨C7_no_match_passthrough "未定" (by decide) (by decide) (by decide),
   C7_no_match_passthrough "１２３" (by decide) (by decide) (by decide)⟩

/-! Projection lemmas for `build_payload`, and the unconfigured-mirroring
pass-through. -/

theorem payload_SourceHash (env : WpEnv) (upload : String → Option String)
    (n i url : String) (d : RawFields) :
    (build_payload env upload n i url d).SourceHash =
      _hash (source_hash_input d (payload_imgs env upload url d)) := rfl

theorem mirror_unconfig (env : WpEnv) (upload : String → Option String)
    (urls : List String) (referer : String)
    (hcfg : env.WP_SITE_URL = "" ∨ env.WP_USER = "" ∨ env.WP_APP_PASSWORD = "") :
    _mirror_images_to_wp env upload urls referer = urls := by
  unfold _mirror_images_to_wp
  rcases hcfg with h | h | h <;> simp [h]

theorem payload_imgs_unconfig (env : WpEnv) (upload : String → Option String)
    (url : String) (d : RawFields)
    (hcfg : env.WP_SITE_URL = "" ∨ env.WP_USER = "" ∨ env.WP_APP_PASSWORD = "") :
    payload_imgs env upload url d = (d.Images.filter (fun im => im ≠ "")).map pyStrip := by
  have hm : ∀ urls, _mirror_images_to_wp env upload urls url = urls :=
    fun urls => mirror_unconfig env upload urls url hcfg
  simp only [payload_imgs, hm]
  split_ifs <;> rfl

/-- C10.  `SourceHash` depends only on the detail mapping: with image
mirroring unconfigured (some WordPress environment value empty, so image
URLs pass through unchanged), two `build_payload` runs over the same detail
mapping but different URLs, different upload oracles and different
wall-clock values produce the same `SourceHash`, while `Date`, `UpdatedAt`
and `SourceURL` simply carry the run-specific inputs. -/
theorem C10_sourcehash_only_detail (env : WpEnv)
    (u1 u2 : String → Option String) (n1 n2 i1 i2 url1 url2 : String)
    (d : RawFields)
    (hcfg : env.WP_SITE_URL = "" ∨ env.WP_USER = "" ∨ env.WP_APP_PASSWORD = "") :
    (build_payload env u1 n1 i1 url1 d).SourceHash =
      (build_payload env u2 n2 i2 url2 d).SourceHash
    ∧ (build_payload env u1 n1 i1 url1 d).Date = n1
    ∧ (build_payload env u2 n2 i2 url2 d).Date = n2
    ∧ (build_payload env u1 n1 i1 url1 d).UpdatedAt = i1
    ∧ (build_payload env u2 n2 i2 url2 d).UpdatedAt = i2
    ∧ (build_payload env u1 n1 i1 url1 d).SourceURL = url1
    ∧ (build_payload env u2 n2 i2 url2 d).SourceURL = url2 := by
  refine ⟨?_, rfl, rfl, rfl, rfl, rfl, rfl⟩
  rw [payload_SourceHash, payload_SourceHash,
    payload_imgs_unconfig env u1 url1 d hcfg, payload_imgs_unconfig env u2 url2 d hcfg]

/-- Closed instance of C10 with an empty environment, two different upload
oracles, urls and clock values, over a detail mapping with an image. -/
theorem C10_sourcehash_only_detail_witness :
    (build_payload ⟨"", "", ""⟩ (fun _ => none) "n1" "i1" "u1"
        { Title := some "t", Images := ["http://img/a.jpg"] }).SourceHash =
      (build_payload ⟨"", "", ""⟩ (fun u => some u) "n2" "i2" "u2"
        { Title := some "t", Images := ["http://img/a.jpg"] }).SourceHash :=
  (C10_sourcehash_only_detail ⟨"", "", ""⟩ (fun _ => none) (fun u => some u)
    "n1" "n2" "i1" "i2" "u1" "u2"
    { Title := some "t", Images := ["http://img/a.jpg"] } (Or.inl rfl)).1

/-- C3.  Two detail mappings that agree on every field except the body, and
whose body texts have the same whitespace-separated words (they differ only
in internal whitespace/line-break placement), produce the same
`SourceHash`: every signature field passes through the whitespace-collapse
`g` before hashing. -/
theorem C3_sourcehash_whitespace_stable (env : WpEnv)
    (upload : String → Option String) (n i url : String) (d1 d2 : RawFields)
    (hT : d1.Title = d2.Title) (hov : d1.overview = d2.overview)
    (hBo : d1.Bonus = d2.Bonus) (hPV : d1.PriceValue = d2.PriceValue)
    (hPT : d1.PriceTaxIncluded = d2.PriceTaxIncluded)
    (hPC : d1.PriceCurrency = d2.PriceCurrency)
    (hPS : d1.PreorderStart = d2.PreorderStart)
    (hPE : d1.PreorderEnd = d2.PreorderEnd)
    (hRD : d1.ReleaseDate = d2.ReleaseDate)
    (hSD : d1.ShippingDate = d2.ShippingDate)
    (hMa : d1.Maker = d2.Maker) (hMt : d1.Materials = d2.Materials)
    (hMo : d1.Modeler = d2.Modeler) (hCh : d1.Character = d2.Character)
    (hSe : d1.Series = d2.Series) (hTg : d1.Tags = d2.Tags)
    (hCp : d1.Copyright = d2.Copyright) (hJA : d1.JAN = d2.JAN)
    (hca : d1.category = d2.category) (hCa : d1.Category = d2.Category)
    (hIm : d1.Images = d2.Images)
    (hbody : pyWords (d1.Body.getD "").data = pyWords (d2.Body.getD "").data) :
    (build_payload env upload n i url d1).SourceHash =
      (build_payload env upload n i url d2).SourceHash := by
  have hg : g (d1.Body.getD "") = g (d2.Body.getD "") := by
    show (⟨joinWords (pyWords (d1.Body.getD "").data)⟩ : String) = _
    rw [hbody]
    rfl
  rw [payload_SourceHash, payload_SourceHash]
  unfold source_hash_input payload_title payload_imgs _mirror_images_to_wp
  rw [hT, hov, hBo, hPV, hPT, hPC, hPS, hPE, hRD, hSD, hMa, hMt, hMo, hCh,
    hSe, hTg, hCp, hIm, hg]

/-- Closed instance of C3: bodies `"ねんどろいど  初音ミク\n全高約100mm"` and
`"ねんどろいど 初音ミク 全高約100mm"` differ only in whitespace placement
and hash identically. -/
theorem C3_sourcehash_whitespace_stable_witness :
    (build_payload ⟨"", "", ""⟩ (fun _ => none) "n" "i" "u"
        { Title := some "t", Body := some "ねんどろいど  初音ミク\n全高約100mm" }).SourceHash =
      (build_payload ⟨"", "", ""⟩ (fun _ => none) "n" "i" "u"
        { Title := some "t", Body := some "ねんどろいど 初音ミク 全高約100mm" }).SourceHash :=
  C3_sourcehash_whitespace_stable ⟨"", "", ""⟩ (fun _ => none) "n" "i" "u"
    { Title := some "t", Body := some "ねんどろいど  初音ミク\n全高約100mm" }
    { Title := some "t", Body := some "ねんどろいど 初音ミク 全高約100mm" }
    rfl rfl rfl rfl rfl rfl rfl rfl rfl rfl rfl rfl rfl rfl rfl rfl rfl rfl
    rfl rfl rfl (by decide)

/-- C8 counterexample.  The claim that every value of the payload mapping
is a string fails on the code: the `NeedsReview` entry is the Python
boolean `False`, exhibited here at a concrete input. -/
theorem C8_counterexample :
    ¬ ∀ kv ∈ payloadValues
        (build_payload ⟨"", "", ""⟩ (fun _ => none) "" "" "" emptyRaw),
        ∃ s, kv.2 = PValue.str s := by
  intro hall
  have hmem : ("NeedsReview", PValue.bool false) ∈ payloadValues
      (build_payload ⟨"", "", ""⟩ (fun _ => none) "" "" "" emptyRaw) := by
    have h33 : ("NeedsReview", PValue.bool false) =
        ("NeedsReview", PValue.bool
          (build_payload ⟨"", "", ""⟩ (fun _ => none) "" "" "" emptyRaw).NeedsReview) := rfl
    rw [h33]
    simp [payloadValues]
  obtain ⟨s, hs⟩ := hall _ hmem
  exact PValue.noConfusion hs

/-- C8 as amended.  Every value of the payload mapping returned by
`build_payload` is a string except the `NeedsReview` entry, which is always
the boolean `False`; the string fields taken from the detail mapping
default to the empty string when the detail key is absent. -/
theorem C8_payload_values (env : WpEnv) (upload : String → Option String)
    (n i url : String) (d : RawFields) :
    (∀ kv ∈ payloadValues (build_payload env upload n i url d),
        kv.1 = "NeedsReview" ∨ ∃ s, kv.2 = PValue.str s)
    ∧ ("NeedsReview", PValue.bool false) ∈
        payloadValues (build_payload env upload n i url d)
    ∧ (d.Tags = none → (build_payload env upload n i url d).Tags = "")
    ∧ (d.PriceValue = none → (build_payload env upload n i url d).PriceValue = "")
    ∧ (d.PriceTaxIncluded = none →
        (build_payload env upload n i url d).PriceTaxIncluded = "")
    ∧ (d.PriceCurrency = none → (build_payload env upload n i url d).PriceCurrency = "")
    ∧ (d.JAN = none → (build_payload env upload n i url d).JAN = "")
    ∧ (d.PreorderStart = none → (build_payload env upload n i url d).PreorderStart = "")
    ∧ (d.PreorderEnd = none → (build_payload env upload n i url d).PreorderEnd = "")
    ∧ (d.ReleaseDate = none → (build_payload env upload n i url d).ReleaseDate = "")
    ∧ (d.ShippingDate = none → (build_payload env upload n i url d).ShippingDate = "")
    ∧ (d.Maker = none → (build_payload env upload n i url d).Maker = "")
    ∧ (d.Materials = none → (build_payload env upload n i url d).Materials = "")
    ∧ (d.Copyright = none → (build_payload env upload n i url d).Copyright = "")
    ∧ (d.Series = none → (build_payload env upload n i url d).Series = "")
    ∧ (d.Modeler = none → (build_payload env upload n i url d).Modeler = "")
    ∧ (d.Character = none → (build_payload env upload n i url d).Character = "") := by
  refine ⟨?_, ?_, ?_, ?_, ?_, ?_, ?_, ?_, ?_, ?_, ?_, ?_, ?_, ?_, ?_, ?_, ?_⟩
  · intro kv hkv
    simp only [payloadValues, List.mem_cons, List.not_mem_nil, or_false] at hkv
    rcases hkv with rfl | rfl | rfl | rfl | rfl | rfl | rfl | rfl | rfl | rfl |
      rfl | rfl | rfl | rfl | rfl | rfl | rfl | rfl | rfl | rfl | rfl | rfl |
      rfl | rfl | rfl | rfl | rfl | rfl | rfl | rfl | rfl | rfl | rfl | rfl
    all_goals first
      | exact Or.inl rfl
      | exact Or.inr ⟨_, rfl⟩
  · have h33 : ("NeedsReview", PValue.bool false) =
        ("NeedsReview", PValue.bool (build_payload env upload n i url d).NeedsReview) := rfl
    rw [h33]
    simp [payloadValues]
  · intro h
    show d.Tags.getD "" = ""
    rw [h]
    rfl
  · intro h
    show d.PriceValue.getD "" = ""
    rw [h]
    rfl
  · intro h
    show d.PriceTaxIncluded.getD "" = ""
    rw [h]
    rfl
  · intro h
    show d.PriceCurrency.getD "" = ""
    rw [h]
    rfl
  · intro h
    show d.JAN.getD "" = ""
    rw [h]
    rfl
  · intro h
    show d.PreorderStart.getD "" = ""
    rw [h]
    rfl
  · intro h
    show d.PreorderEnd.getD "" = ""
    rw [h]
    rfl
  · intro h
    show d.ReleaseDate.getD "" = ""
    rw [h]
    rfl
  · intro h
    show d.ShippingDate.getD "" = ""
    rw [h]
    rfl
  · intro h
    show d.Maker.getD "" = ""
    rw [h]
    rfl
  · intro h
    show d.Materials.getD "" = ""
    rw [h]
    rfl
  · intro h
    show d.Copyright.getD "" = ""
    rw [h]
    rfl
  · intro h
    show d.Series.getD "" = ""
    rw [h]
    rfl
  · intro h
    show d.Modeler.getD "" = ""
    rw [h]
    rfl
  · intro h
    show d.Character.getD "" = ""
    rw [h]
    rfl

/-- Closed instance of the amended C8 on the empty detail mapping: the
`Date` entry is a string, `NeedsReview` is the boolean `False`, and the
defaults are empty. -/
theorem C8_payload_values_witness :
    ("NeedsReview", PValue.bool false) ∈ payloadValues
      (build_payload ⟨"", "", ""⟩ (fun _ => none) "" "" "" emptyRaw)
    ∧ (build_payload ⟨"", "", ""⟩ (fun _ => none) "" "" "" emptyRaw).Tags = ""
    ∧ (build_payload ⟨"", "", ""⟩ (fun _ => none) "" "" "" emptyRaw).Maker = "" :=
  ⟨(C8_payload_values ⟨"", "", ""⟩ (fun _ => none) "" "" "" emptyRaw).2.1,
   (C8_payload_values ⟨"", "", ""⟩ (fun _ => none) "" "" "" emptyRaw).2.2.1 rfl,
   (C8_payload_values ⟨"", "", ""⟩ (fun _ => none) "" "" "" emptyRaw).2.2.2.2.2.2.2.2.2.2.2.1 rfl⟩

theorem processItems_append
    (build : String → Option RawFields → Except String Payload) :
    ∀ l1 l2 : List ChangeItem,
      processItems build (l1 ++ l2) =
        ((processItems build l1).1 ++ (processItems build l2).1,
         (processItems build l1).2 ++ (processItems build l2).2) := by
  intro l1 l2
  induction l1 with
  | nil => simp [processItems]
  | cons it rest ih =>
    have hcons : ∀ l : List ChangeItem, processItems build (it :: l) =
        (match it.payload with
         | some p => (p :: (processItems build l).1, (processItems build l).2)
         | none =>
           match build (changeItemUrl it) it.detail_data with
           | .ok p => (p :: (processItems build l).1, (processItems build l).2)
           | .error e2 =>
             ((processItems build l).1,
              (displayTarget it ++ ": " ++ e2) :: (processItems build l).2)) :=
      fun _ => rfl
    show processItems build (it :: (rest ++ l2)) = _
    rw [hcons (rest ++ l2), hcons rest, ih]
    cases it.payload with
    | some p => simp
    | none =>
      cases build (changeItemUrl it) it.detail_data with
      | ok p => simp
      | error e2 => simp

/-- C9.  When building one item's payload raises (the builder returns an
error for that item), `on_change` records one error message identifying the
item and continues with the rest of the batch: the returned payload list is
exactly the successful builds of the surrounding items, that same list is
what the sheet appender receives, and `on_change` returns its triple
normally instead of propagating the per-item exception. -/
theorem C9_on_change_isolation
    (build : String → Option RawFields → Except String Payload)
    (append : List Payload → Except String Nat)
    (pre post : List ChangeItem) (bad : ChangeItem) (e : String)
    (hpay : bad.payload = none)
    (hbuild : build (changeItemUrl bad) bad.detail_data = .error e) :
    (on_change build append (pre ++ bad :: post)).1 =
      (processItems build pre).1 ++ (processItems build post).1
    ∧ (displayTarget bad ++ ": " ++ e) ∈ (on_change build append (pre ++ bad :: post)).2.1
    ∧ ((on_change build append (pre ++ bad :: post)).1 ≠ [] →
        ∀ k, append ((on_change build append (pre ++ bad :: post)).1) = .ok k →
          (on_change build append (pre ++ bad :: post)).2.2 = k) := by
  have hbadstep : processItems build (bad :: post) =
      ((processItems build post).1,
       (displayTarget bad ++ ": " ++ e) :: (processItems build post).2) := by
    have hcons : processItems build (bad :: post) =
        (match bad.payload with
         | some p => (p :: (processItems build post).1, (processItems build post).2)
         | none =>
           match build (changeItemUrl bad) bad.detail_data with
           | .ok p => (p :: (processItems build post).1, (processItems build post).2)
           | .error e2 =>
             ((processItems build post).1,
              (displayTarget bad ++ ": " ++ e2) :: (processItems build post).2)) := rfl
    rw [hcons, hpay, hbuild]
  have hsplit : processItems build (pre ++ bad :: post) =
      ((processItems build pre).1 ++ (processItems build post).1,
       (processItems build pre).2 ++
         ((displayTarget bad ++ ": " ++ e) :: (processItems build post).2)) := by
    rw [processItems_append build pre (bad :: post), hbadstep]
  have hmem : (displayTarget bad ++ ": " ++ e) ∈
      (processItems build pre).2 ++
        ((displayTarget bad ++ ": " ++ e) :: (processItems build post).2) :=
    List.mem_append_right _ (List.mem_cons_self _ _)
  unfold on_change
  rw [hsplit]
  by_cases hX : ((processItems build pre).1 ++ (processItems build post).1).isEmpty
  · rw [if_pos hX]
    refine ⟨rfl, hmem, ?_⟩
    intro hne
    exact absurd (List.isEmpty_iff.mp hX) hne
  · rw [if_neg hX]
    cases happ : append ((processItems build pre).1 ++ (processItems build post).1) with
    | ok m =>
      refine ⟨rfl, hmem, ?_⟩
      intro _ k hk
      rw [happ] at hk
      injection hk with h
    | error e2 =>
      refine ⟨rfl, List.mem_append_left _ hmem, ?_⟩
      intro _ k hk
      rw [happ] at hk
      exact Except.noConfusion hk

/-- Closed instance of C9: a three-item batch whose middle item fails to
build; the two prebuilt payloads are still appended (two rows written) and
the failure is recorded against the failing item's url. -/
theorem C9_on_change_isolation_witness :
    (on_change failBuilder lenAppender
        ([sampleOkItem] ++ sampleBadItem :: [sampleOkItem])).1 =
      (processItems failBuilder [sampleOkItem]).1 ++
        (processItems failBuilder [sampleOkItem]).1
    ∧ (displayTarget sampleBadItem ++ ": " ++ "boom") ∈
        (on_change failBuilder lenAppender
          ([sampleOkItem] ++ sampleBadItem :: [sampleOkItem])).2.1
    ∧ (on_change failBuilder lenAppender
        ([sampleOkItem] ++ sampleBadItem :: [sampleOkItem])).2.2 = 2 :=
  ⟨(C9_on_change_isolation failBuilder lenAppender [sampleOkItem] [sampleOkItem]
      sampleBadItem "boom" rfl rfl).1,
   (C9_on_change_isolation failBuilder lenAppender [sampleOkItem] [sampleOkItem]
      sampleBadItem "boom" rfl rfl).2.1,
   (C9_on_change_isolation failBuilder lenAppender [sampleOkItem] [sampleOkItem]
      sampleBadItem "boom" rfl rfl).2.2 (List.cons_ne_nil _ _) 2 rfl⟩

end HoloMonitor
